import Mathlib

/-!
# Verification of the kilo terminal-editor core (src/kilo.c)

Shallow embedding of the terminal-session, key-decoding and screen-rendering
subsystem of `src/kilo.c`.  Bytes are modelled as `Nat` (values 0..255), the
input stream as a `List Nat` where an empty remainder stands for a read
timeout (read() returning 0 under VMIN=0/VTIME=1), and the append buffer as a
`List Char` of ASCII bytes together with its length field.
-/

set_option autoImplicit false

namespace Kilo

/-! ## Key codes (`enum editorKey`, kilo.c lines 14-24) -/

def ARROW_LEFT : Nat := 1000
def ARROW_RIGHT : Nat := 1001
def ARROW_UP : Nat := 1002
def ARROW_DOWN : Nat := 1003
def DEL_KEY : Nat := 1004
def HOME_KEY : Nat := 1005
def END_KEY : Nat := 1006
def PAGE_UP : Nat := 1007
def PAGE_DOWN : Nat := 1008

/-- Macro `CTRL_KEY(k) = ((k) & 0x1f)` (kilo.c line 12). -/
def CTRL_KEY (k : Nat) : Nat := k &&& 0x1f

/-! ## Key decoder (`editorReadKey`, kilo.c lines 64-109)

`editorReadKey` reads one byte (blocking: the `while` loop retries on
timeout), and on the escape byte 0x1B reads up to three follow-up bytes with
the 100 ms timeout; a timed-out follow-up read (`read(...) != 1`) returns
`'\x1b'`.  We model the available byte stream as a list; the decoder returns
the key code produced (an `int` in C: either a raw byte or one of the enum
values above) together with the unconsumed remainder of the stream.  `none`
models the decoder blocking forever on an empty stream (no first byte ever
arrives).

The C source nests `else if (seq[0] == 'O')` INSIDE the `if (seq[0] == '[')`
block (kilo.c line 89), where `seq[0] == 'O'` can never hold; the branch is
translated faithfully below and is dead code, so every `\x1bO...` input falls
through to `return '\x1b'`. -/
def editorReadKey : List Nat → Option (Nat × List Nat)
  | [] => none
  | c :: rest =>
    if c = 0x1b then
      match rest with
      | [] => some (0x1b, [])                         -- read of seq[0] timed out
      | s0 :: rest1 =>
        match rest1 with
        | [] => some (0x1b, [])                       -- read of seq[1] timed out
        | s1 :: rest2 =>
          if s0 = 91 then                             -- seq[0] == '[' (0x5B)
            if 48 ≤ s1 ∧ s1 ≤ 57 then                 -- seq[1] between '0' and '9'
              match rest2 with
              | [] => some (0x1b, [])                 -- read of seq[2] timed out
              | s2 :: rest3 =>
                if s2 = 126 then                      -- seq[2] == '~'
                  if s1 = 49 then some (HOME_KEY, rest3)        -- '1'
                  else if s1 = 52 then some (END_KEY, rest3)    -- '4'
                  else if s1 = 51 then some (DEL_KEY, rest3)    -- '3'
                  else if s1 = 53 then some (PAGE_UP, rest3)    -- '5'
                  else if s1 = 54 then some (PAGE_DOWN, rest3)  -- '6'
                  else if s1 = 55 then some (HOME_KEY, rest3)   -- '7'
                  else if s1 = 56 then some (END_KEY, rest3)    -- '8'
                  else some (0x1b, rest3)             -- switch falls through
                else some (0x1b, rest3)               -- seq[2] not '~'
            else if s0 = 79 then                      -- dead: seq[0]='[' here, never 'O'
              if s1 = 72 then some (HOME_KEY, rest2)
              else if s1 = 70 then some (END_KEY, rest2)
              else some (0x1b, rest2)
            else
              if s1 = 65 then some (ARROW_UP, rest2)          -- 'A'
              else if s1 = 66 then some (ARROW_DOWN, rest2)   -- 'B'
              else if s1 = 67 then some (ARROW_RIGHT, rest2)  -- 'C'
              else if s1 = 68 then some (ARROW_LEFT, rest2)   -- 'D'
              else if s1 = 72 then some (HOME_KEY, rest2)     -- 'H'
              else if s1 = 70 then some (END_KEY, rest2)      -- 'F'
              else some (0x1b, rest2)                 -- switch falls through
          else some (0x1b, rest2)                     -- seq[0] not '[': falls to return
    else some (c, rest)

/-! ## Editor state (`struct editorConfig`, kilo.c lines 26-33) -/

/-- The global editor state: cursor coordinates and terminal dimensions,
all C `int`s, modelled as `Int`. -/
structure EditorConfig where
  cx : Int
  cy : Int
  screenrows : Int
  screencols : Int
deriving DecidableEq, Repr

/-- Function `editorMoveCursor` (kilo.c lines 168-191): arrow keys move the cursor,
each guarded against its own edge by an inequality test. -/
def editorMoveCursor (key : Nat) (E : EditorConfig) : EditorConfig :=
  if key = ARROW_LEFT then
    (if E.cx ≠ 0 then { E with cx := E.cx - 1 } else E)
  else if key = ARROW_RIGHT then
    (if E.cx ≠ E.screencols - 1 then { E with cx := E.cx + 1 } else E)
  else if key = ARROW_UP then
    (if E.cy ≠ 0 then { E with cy := E.cy - 1 } else E)
  else if key = ARROW_DOWN then
    (if E.cy ≠ E.screenrows - 1 then { E with cy := E.cy + 1 } else E)
  else E

/-- The dispatch part of `editorProcessKeypress` (kilo.c lines 199-226),
applied to the key code returned by `editorReadKey`.  `none` models the
`exit(0)` taken on Ctrl-Q; every other key yields the updated state.
`CTRL_KEY 113` is Ctrl-Q (`'q'` = 113). -/
def editorProcessKeypress (c : Nat) (E : EditorConfig) : Option EditorConfig :=
  if c = CTRL_KEY 113 then none
  else if c = HOME_KEY then some { E with cx := 0 }
  else if c = END_KEY then some { E with cx := E.screencols - 1 }
  else if c = ARROW_UP ∨ c = ARROW_DOWN ∨ c = ARROW_LEFT ∨ c = ARROW_RIGHT then
    some (editorMoveCursor c E)
  else some E

/-- Iterated keypress processing: one `editorProcessKeypress` dispatch per
decoded key event, stopping at an `exit`. -/
def processKeys : List Nat → EditorConfig → Option EditorConfig
  | [], E => some E
  | k :: ks, E =>
    match editorProcessKeypress k E with
    | none => none
    | some E2 => processKeys ks E2

/-! ## Terminal session (`die`, `disableRawMode`, kilo.c lines 36-45)

The terminal's active configuration is modelled as a `Termios` record of the
attribute fields the program touches; `tcsetattr(fd, TCSAFLUSH, &t)` replaces
the active configuration by `t` (the flush action affects pending bytes, not
the resulting configuration). -/

/-- The `struct termios` fields `kilo.c` manipulates: the four flag words
(bit masks as `Nat`) and the `VMIN`/`VTIME` control characters. -/
structure Termios where
  c_iflag : Nat
  c_oflag : Nat
  c_cflag : Nat
  c_lflag : Nat
  vmin : Nat
  vtime : Nat
deriving DecidableEq, Repr

/-- Call `tcsetattr(STDIN_FILENO, TCSAFLUSH, &attrs)`: the terminal's active
configuration becomes `attrs`, whatever it was before. -/
def tcsetattr (attrs : Termios) (_current : Termios) : Termios := attrs

/-- Function `disableRawMode` (kilo.c lines 43-45): reapply the saved original
terminal settings `E.orig_termios` to the terminal whose active
configuration is `current`. -/
def disableRawMode (orig_termios : Termios) (current : Termios) : Termios :=
  tcsetattr orig_termios current

/-! ## Fatal exit path (`die`, kilo.c lines 36-41)

`die` performs two screen-control writes to stdout, calls `perror` (which
prints the message to stderr), and calls `exit(1)`.  `exit` runs the
handlers registered with `atexit` — `main` calls `enableRawMode` first,
which registers `disableRawMode` (kilo.c line 49) before any call site of
`die` is reachable — and then terminates the process with the given status.
We record the externally observable actions of this path as a trace. -/

/-- One externally observable action of the fatal exit path. -/
inductive Action where
  | writeOut : String → Action    -- write(STDOUT_FILENO, ...)
  | perrorMsg : String → Action   -- perror(s): message to stderr
  | restoreTermios : Action       -- disableRawMode (tcsetattr of the snapshot)
  | exitStatus : Nat → Action     -- process terminates with this status
deriving DecidableEq, Repr

/-- Call `exit(code)`: run the atexit-registered `disableRawMode`, then
terminate with `code`. -/
def exitTrace (code : Nat) : List Action :=
  [Action.restoreTermios, Action.exitStatus code]

/-- The observable trace of `die(s)` (kilo.c lines 36-41): clear screen,
cursor home, error message, then `exit(1)`. -/
def dieTrace (s : String) : List Action :=
  [Action.writeOut "\x1b[2J", Action.writeOut "\x1b[H", Action.perrorMsg s]
    ++ exitTrace 1

/-- Action `a` occurs strictly before action `b` in the trace `l`. -/
def precedes (a b : Action) (l : List Action) : Prop :=
  ∃ i : Fin l.length, ∃ j : Fin l.length, i.val < j.val ∧ l.get i = a ∧ l.get j = b

instance (a b : Action) (l : List Action) : Decidable (precedes a b l) := by
  unfold precedes; infer_instance

/-! ## Append buffer (`struct abuf` / `abAppend`, kilo.c lines 145-162)

The buffer's bytes are a `List Char` (ASCII); `len` is the `int` length
field.  `realloc` either fails (`reallocOk = false`: returns NULL, the
original allocation is untouched) or succeeds with the grown buffer, whose
tail is then filled by `memcpy`. -/

structure Abuf where
  b : List Char
  len : Nat
deriving DecidableEq, Repr

/-- The bytes of a string literal. -/
def chars (s : String) : List Char := s.data

/-- Function `abAppend` (kilo.c lines 152-158): on realloc success, copy `s` after the
existing bytes and bump `len`; on realloc failure (`new == NULL`), return
without touching the buffer. -/
def abAppend (reallocOk : Bool) (ab : Abuf) (s : List Char) : Abuf :=
  if reallocOk then { b := ab.b ++ s, len := ab.len + s.length } else ab

/-! ## Screen renderer (`editorDrawRows` / `editorRefreshScreen`,
kilo.c lines 229-270)

Rendering is modelled with every `realloc` succeeding (`abAppend true`). -/

/-- Version string `KILO_VERSION` (kilo.c line 13). -/
def KILO_VERSION : String := "0.0.1"

/-- The banner `snprintf` formats into `welcome[80]` (kilo.c lines 235-236);
at 28 characters it fits the 80-byte buffer, so `snprintf` truncation never
occurs. -/
def welcomeMessage : String := "Kilo editor -- version " ++ KILO_VERSION

/-- The welcome-row branch of `editorDrawRows` (kilo.c lines 233-241):
truncate the banner to the screen width, centre it with a leading `~` and
spaces (the `while (padding--)` loop appends the spaces one at a time; their
concatenation is appended here in one step).  `screencols` is taken
non-negative via `toNat`, matching the C `int` arithmetic on any viewport the
program can have. -/
def drawWelcomeRow (E : EditorConfig) (ab : Abuf) : Abuf :=
  let cols := E.screencols.toNat
  let welcomelen := min (chars welcomeMessage).length cols
  let padding := (cols - welcomelen) / 2
  let ab1 := if padding ≠ 0 then abAppend true ab (chars "~") else ab
  let padding1 := if padding ≠ 0 then padding - 1 else padding
  let ab2 := abAppend true ab1 (List.replicate padding1 ' ')
  abAppend true ab2 ((chars welcomeMessage).take welcomelen)

/-- One iteration of the row loop of `editorDrawRows` (kilo.c lines
232-247): banner row at `rows / 3`, `~` elsewhere, then clear-to-end-of-line,
then `\r\n` on every row but the last. -/
def drawRow (E : EditorConfig) (rows : Nat) (ab : Abuf) (y : Nat) : Abuf :=
  let ab1 := if y = rows / 3 then drawWelcomeRow E ab else abAppend true ab (chars "~")
  let ab2 := abAppend true ab1 (chars "\x1b[K")
  if y + 1 < rows then abAppend true ab2 (chars "\r\n") else ab2

/-- Function `editorDrawRows` (kilo.c lines 229-248): the row loop over
`0 ≤ y < E.screenrows`. -/
def editorDrawRows (E : EditorConfig) (ab : Abuf) : Abuf :=
  (List.range E.screenrows.toNat).foldl (drawRow E E.screenrows.toNat) ab

/-- The cursor-position escape code `snprintf` produces at kilo.c line 259:
`\x1b[<cy+1>;<cx+1>H` (1-based wire format, `%d` rendering of the two
`int`s). -/
def cursorPosCode (E : EditorConfig) : List Char :=
  chars "\x1b[" ++ chars (toString (E.cy + 1)) ++ chars ";"
    ++ chars (toString (E.cx + 1)) ++ chars "H"

/-- Function `editorRefreshScreen` (kilo.c lines 250-270): build the frame in a fresh
append buffer — hide cursor, home, rows, cursor position, show cursor — and
return the byte sequence handed to the single `write`. -/
def editorRefreshScreen (E : EditorConfig) : List Char :=
  let ab : Abuf := ⟨[], 0⟩
  let ab1 := abAppend true ab (chars "\x1b[?25l")
  let ab2 := abAppend true ab1 (chars "\x1b[H")
  let ab3 := editorDrawRows E ab2
  let ab4 := abAppend true ab3 (cursorPosCode E)
  let ab5 := abAppend true ab4 (chars "\x1b[?25h")
  ab5.b

/-- The bytes `editorDrawRows` appends, in isolation (starting from an empty
buffer). -/
def rowsBytes (E : EditorConfig) : List Char :=
  (editorDrawRows E ⟨[], 0⟩).b

/-- The bytes the welcome-row branch appends, in isolation. -/
def welcomeRowBytes (E : EditorConfig) : List Char :=
  (drawWelcomeRow E ⟨[], 0⟩).b

/-- The bytes one iteration of the row loop appends, in isolation. -/
def rowBytes (E : EditorConfig) (rows y : Nat) : List Char :=
  (drawRow E rows ⟨[], 0⟩ y).b

/-! ## Invariant predicates -/

/-- The cursor-position invariant of the spec (§3 ViewState):
`0 ≤ cx < screencols` and `0 ≤ cy < screenrows`. -/
def cursorInBounds (E : EditorConfig) : Prop :=
  0 ≤ E.cx ∧ E.cx < E.screencols ∧ 0 ≤ E.cy ∧ E.cy < E.screenrows

instance : DecidablePred cursorInBounds := fun E => by
  unfold cursorInBounds; infer_instance

/-- The key events handled by the key-to-motion mapping:
arrows, Home, End. -/
def isMotionKey (k : Nat) : Prop :=
  k = ARROW_UP ∨ k = ARROW_DOWN ∨ k = ARROW_LEFT ∨ k = ARROW_RIGHT
    ∨ k = HOME_KEY ∨ k = END_KEY

instance : DecidablePred isMotionKey := fun k => by
  unfold isMotionKey; infer_instance

/-! # Theorems -/

/-! ## Key decoder -/

/-- C7: a first byte other than the escape byte 0x1B is returned as-is
(the raw Printable/ControlCombo byte), consuming exactly that byte. -/
theorem C7_nonescape_byte_passthrough (c : Nat) (rest : List Nat) (h : c ≠ 0x1b) :
    editorReadKey (c :: rest) = some (c, rest) := by
  simp only [editorReadKey]
  rw [if_neg h]

theorem C7_witness : editorReadKey [113] = some (113, []) :=
  C7_nonescape_byte_passthrough 113 [] (by decide)

/-- C6: the CSI letter forms `\x1b[A/B/C/D/H/F` map to
ArrowUp/ArrowDown/ArrowRight/ArrowLeft/Home/End, and the CSI numeric forms
`\x1b[<digit>~` map 1→Home, 3→Delete, 4→End, 5→PageUp, 6→PageDown,
7→Home, 8→End; each consumes exactly its own bytes. -/
theorem C6_csi_mappings (rest : List Nat) :
    (editorReadKey (0x1b :: 91 :: 65 :: rest) = some (ARROW_UP, rest)
      ∧ editorReadKey (0x1b :: 91 :: 66 :: rest) = some (ARROW_DOWN, rest)
      ∧ editorReadKey (0x1b :: 91 :: 67 :: rest) = some (ARROW_RIGHT, rest)
      ∧ editorReadKey (0x1b :: 91 :: 68 :: rest) = some (ARROW_LEFT, rest)
      ∧ editorReadKey (0x1b :: 91 :: 72 :: rest) = some (HOME_KEY, rest)
      ∧ editorReadKey (0x1b :: 91 :: 70 :: rest) = some (END_KEY, rest))
    ∧ (editorReadKey (0x1b :: 91 :: 49 :: 126 :: rest) = some (HOME_KEY, rest)
      ∧ editorReadKey (0x1b :: 91 :: 51 :: 126 :: rest) = some (DEL_KEY, rest)
      ∧ editorReadKey (0x1b :: 91 :: 52 :: 126 :: rest) = some (END_KEY, rest)
      ∧ editorReadKey (0x1b :: 91 :: 53 :: 126 :: rest) = some (PAGE_UP, rest)
      ∧ editorReadKey (0x1b :: 91 :: 54 :: 126 :: rest) = some (PAGE_DOWN, rest)
      ∧ editorReadKey (0x1b :: 91 :: 55 :: 126 :: rest) = some (HOME_KEY, rest)
      ∧ editorReadKey (0x1b :: 91 :: 56 :: 126 :: rest) = some (END_KEY, rest)) :=
  ⟨⟨rfl, rfl, rfl, rfl, rfl, rfl⟩, rfl, rfl, rfl, rfl, rfl, rfl, rfl⟩

theorem C6_witness : editorReadKey [0x1b, 91, 65] = some (ARROW_UP, []) :=
  (C6_csi_mappings []).1.1

/-- C1: the claim says `\x1bOH` decodes to Home and `\x1bOF` to End.  In the
code the `else if (seq[0] == 'O')` branch (kilo.c line 89) is nested inside
`if (seq[0] == '[')` and is therefore unreachable: both inputs decode to the
bare escape byte 0x1B (EscapeUnresolved), not Home/End. -/
theorem C1_ss3_branch_unreachable :
    editorReadKey [0x1b, 79, 72] = some (0x1b, [])
    ∧ editorReadKey [0x1b, 79, 70] = some (0x1b, [])
    ∧ (0x1b : Nat) ≠ HOME_KEY ∧ (0x1b : Nat) ≠ END_KEY := by
  decide

/-- C2 counterexample: the claim says the decoder consumes exactly the
bytes of the malformed sequence, leaving the stream positioned immediately
after it.  For the 2-byte malformed prefix `\x1b Z` (the spec grammar stops
at the second byte, which is neither `[` nor `O`) followed by a pending
byte 113 (`q`), the claim predicts remainder `[113]`; but kilo.c lines
72-73 read two follow-up bytes unconditionally, so the pending `q` is
consumed and dropped: the remainder is `[]`. -/
theorem C2_counterexample :
    editorReadKey [0x1b, 90, 113] = some (0x1b, [])
    ∧ editorReadKey [0x1b, 90, 113] ≠ some (0x1b, [113]) := by
  decide

/-- C2 amended: (a) whatever `editorReadKey` consumes, the returned
remainder is an exact suffix of the input stream — no byte is consumed
twice, none is reordered or reinterpreted; (b) the malformed CSI sequence
`\x1b[9~` is consumed exactly (4 bytes) and yields the bare escape byte
(EscapeUnresolved); (c) likewise `\x1b[Z` (3 bytes); (d) but after the
escape byte the decoder always consumes two follow-up bytes before
classifying, so for any 2-byte escape prefix `\x1b x` with `x` not `[`
(hence malformed or SS3) the one pending byte after it is consumed and
dropped as well. -/
theorem C2_escape_consumption_amended :
    (∀ (input : List Nat) (k : Nat) (rest : List Nat),
        editorReadKey input = some (k, rest) → List.IsSuffix rest input)
    ∧ (∀ rest : List Nat,
        editorReadKey (0x1b :: 91 :: 57 :: 126 :: rest) = some (0x1b, rest))
    ∧ (∀ rest : List Nat,
        editorReadKey (0x1b :: 91 :: 90 :: rest) = some (0x1b, rest))
    ∧ (∀ (x s1 : Nat) (rest : List Nat), x ≠ 91 →
        editorReadKey (0x1b :: x :: s1 :: rest) = some (0x1b, rest)) := by
  refine ⟨?_, fun rest => rfl, fun rest => rfl,
    fun x s1 rest hx => by simp [editorReadKey, hx]⟩
  intro input k rest h
  rcases input with _ | ⟨c, r⟩
  · simp [editorReadKey] at h
  · by_cases hc : c = 0x1b
    · subst hc
      rcases r with _ | ⟨s0, r1⟩
      · simp [editorReadKey] at h
        obtain ⟨hk, hr⟩ := h
        subst hr
        exact List.nil_suffix
      · rcases r1 with _ | ⟨s1, r2⟩
        · simp [editorReadKey] at h
          obtain ⟨hk, hr⟩ := h
          subst hr
          exact List.nil_suffix
        · by_cases h0 : s0 = 91
          · by_cases h1 : 48 ≤ s1 ∧ s1 ≤ 57
            · rcases r2 with _ | ⟨s2, r3⟩
              · simp [editorReadKey, h0, h1] at h
                obtain ⟨hk, hr⟩ := h
                subst hr
                exact List.nil_suffix
              · simp [editorReadKey, h0, h1] at h
                split_ifs at h <;>
                  · simp only [Option.some.injEq, Prod.mk.injEq] at h
                    obtain ⟨hk, hr⟩ := h
                    subst hr
                    exact ⟨[0x1b, s0, s1, s2], by simp⟩
            · simp [editorReadKey, h0, h1] at h
              split_ifs at h <;>
                · simp only [Option.some.injEq, Prod.mk.injEq] at h
                  obtain ⟨hk, hr⟩ := h
                  subst hr
                  exact ⟨[0x1b, s0, s1], by simp⟩
          · simp [editorReadKey, h0] at h
            obtain ⟨hk, hr⟩ := h
            subst hr
            exact ⟨[0x1b, s0, s1], by simp⟩
    · simp only [editorReadKey] at h
      rw [if_neg hc] at h
      simp only [Option.some.injEq, Prod.mk.injEq] at h
      obtain ⟨hk, hr⟩ := h
      subst hr
      exact ⟨[c], rfl⟩

theorem C2_witness : editorReadKey [0x1b, 90, 113] = some (0x1b, []) :=
  C2_escape_consumption_amended.2.2.2 90 113 [] (by decide)

/-! ## Cursor motion -/

/-- Ctrl-Q, that is `CTRL_KEY` of 113, is the control byte 17. -/
lemma ctrlQ_eq : CTRL_KEY 113 = 17 := rfl

lemma mk_cx (a b c d : Int) : (EditorConfig.mk a b c d).cx = a := rfl

lemma mk_cy (a b c d : Int) : (EditorConfig.mk a b c d).cy = b := rfl

lemma mk_rows (a b c d : Int) : (EditorConfig.mk a b c d).screenrows = c := rfl

lemma mk_cols (a b c d : Int) : (EditorConfig.mk a b c d).screencols = d := rfl

/-- Function `editorMoveCursor` preserves the cursor bounds: every
decrement/increment is guarded against its own edge. -/
lemma moveCursor_bounds (k : Nat) (E : EditorConfig) (hE : cursorInBounds E) :
    cursorInBounds (editorMoveCursor k E) := by
  obtain ⟨hx0, hxc, hy0, hyr⟩ := hE
  unfold cursorInBounds editorMoveCursor
  split_ifs <;> (try simp only [mk_cx, mk_cy, mk_rows, mk_cols]) <;> omega

/-- One motion key preserves the cursor bounds (arrows via
`editorMoveCursor`; Home sets column 0; End sets column
`screencols - 1`). -/
lemma keypress_preserves_bounds {k : Nat} {E E2 : EditorConfig}
    (hk : isMotionKey k) (hE : cursorInBounds E)
    (h : editorProcessKeypress k E = some E2) : cursorInBounds E2 := by
  have hq : k ≠ CTRL_KEY 113 := by
    rcases hk with h1 | h1 | h1 | h1 | h1 | h1 <;> subst h1 <;> decide
  unfold editorProcessKeypress at h
  rw [if_neg hq] at h
  by_cases hH : k = HOME_KEY
  · rw [if_pos hH] at h
    obtain rfl := Option.some.inj h
    obtain ⟨hx0, hxc, hy0, hyr⟩ := hE
    unfold cursorInBounds
    simp only [mk_cx, mk_cy, mk_rows, mk_cols]
    omega
  · rw [if_neg hH] at h
    by_cases hEnd : k = END_KEY
    · rw [if_pos hEnd] at h
      obtain rfl := Option.some.inj h
      obtain ⟨hx0, hxc, hy0, hyr⟩ := hE
      unfold cursorInBounds
      simp only [mk_cx, mk_cy, mk_rows, mk_cols]
      omega
    · rw [if_neg hEnd] at h
      have harr : k = ARROW_UP ∨ k = ARROW_DOWN ∨ k = ARROW_LEFT ∨ k = ARROW_RIGHT := by
        rcases hk with h1 | h1 | h1 | h1 | h1 | h1 <;> tauto
      rw [if_pos harr] at h
      obtain rfl := Option.some.inj h
      exact moveCursor_bounds k E hE

/-- Iterated processing of motion keys preserves the cursor bounds. -/
lemma processKeys_preserves_bounds :
    ∀ (ks : List Nat) (E : EditorConfig), (∀ k ∈ ks, isMotionKey k) →
      cursorInBounds E → ∀ E2, processKeys ks E = some E2 → cursorInBounds E2
  | [], E, _, hE, E2, h => by
    simp [processKeys] at h
    exact h ▸ hE
  | k :: ks, E, hks, hE, E2, h => by
    unfold processKeys at h
    cases hcall : editorProcessKeypress k E with
    | none => rw [hcall] at h; simp at h
    | some E1 =>
      rw [hcall] at h
      exact processKeys_preserves_bounds ks E1
        (fun k2 hk2 => hks k2 (List.mem_cons_of_mem _ hk2))
        (keypress_preserves_bounds (hks k (List.mem_cons_self _ _)) hE hcall) E2 h

/-- C4: starting at cursor (0,0) in a viewport with at least one row and one
column, after any sequence of Arrow/Home/End key events processed by
`editorProcessKeypress`, the invariant
`0 ≤ cx < screencols ∧ 0 ≤ cy < screenrows` holds (and therefore it held
after each intermediate event, each being a shorter such sequence). -/
theorem C4_cursor_invariant (ks : List Nat) (rows cols : Int)
    (hrows : 1 ≤ rows) (hcols : 1 ≤ cols)
    (hks : ∀ k ∈ ks, isMotionKey k) (E2 : EditorConfig)
    (h : processKeys ks ⟨0, 0, rows, cols⟩ = some E2) :
    cursorInBounds E2 := by
  have start : cursorInBounds ⟨0, 0, rows, cols⟩ := by
    refine ⟨le_refl 0, ?_, le_refl 0, ?_⟩ <;> simp <;> omega
  exact processKeys_preserves_bounds ks _ hks start E2 h

theorem C4_witness : cursorInBounds ⟨1, 0, 24, 80⟩ :=
  C4_cursor_invariant [ARROW_RIGHT] 24 80 (by decide) (by decide) (by decide)
    ⟨1, 0, 24, 80⟩ (by decide)

/-- C10: any decoded key other than Ctrl-Q (= `CTRL_KEY 113`), Home, End and
the four arrows falls through every `case` of `editorProcessKeypress` and
leaves the editor state — in particular the cursor column and row —
unchanged. -/
theorem C10_other_keys_leave_cursor (c : Nat) (E : EditorConfig)
    (h : c ≠ CTRL_KEY 113 ∧ c ≠ HOME_KEY ∧ c ≠ END_KEY ∧ c ≠ ARROW_UP
      ∧ c ≠ ARROW_DOWN ∧ c ≠ ARROW_LEFT ∧ c ≠ ARROW_RIGHT) :
    editorProcessKeypress c E = some E := by
  obtain ⟨h1, h2, h3, h4, h5, h6, h7⟩ := h
  unfold editorProcessKeypress
  rw [if_neg h1, if_neg h2, if_neg h3, if_neg]
  rintro (hh | hh | hh | hh)
  · exact h4 hh
  · exact h5 hh
  · exact h6 hh
  · exact h7 hh

theorem C10_witness : editorProcessKeypress 0x1b ⟨3, 4, 24, 80⟩ = some ⟨3, 4, 24, 80⟩ :=
  C10_other_keys_leave_cursor 0x1b ⟨3, 4, 24, 80⟩ (by decide)

/-! ## Terminal session -/

/-- C8: terminal-mode restoration is idempotent — `disableRawMode` reapplies
the saved snapshot verbatim via `tcsetattr`, so a second invocation leaves
the terminal in the same configuration as the first. -/
theorem C8_restore_idempotent (orig t : Termios) :
    disableRawMode orig (disableRawMode orig t) = disableRawMode orig t := rfl

theorem C8_witness :
    disableRawMode ⟨1, 2, 3, 4, 0, 1⟩ (disableRawMode ⟨1, 2, 3, 4, 0, 1⟩ ⟨9, 8, 7, 6, 5, 4⟩)
      = disableRawMode ⟨1, 2, 3, 4, 0, 1⟩ ⟨9, 8, 7, 6, 5, 4⟩ :=
  C8_restore_idempotent ⟨1, 2, 3, 4, 0, 1⟩ ⟨9, 8, 7, 6, 5, 4⟩

/-! ## Fatal exit path -/

/-- C3 counterexample: on the fatal path `die("read")` the cause message
(`perror`, trace index 2) is emitted BEFORE terminal-mode restoration
(the `atexit`-registered `disableRawMode` runs inside `exit(1)`, trace
index 3), so "the cause message is always preceded by mode restoration"
is false. -/
theorem C3_counterexample :
    ¬ precedes Action.restoreTermios (Action.perrorMsg "read") (dieTrace "read") := by
  decide

/-- C3 amended: on the fatal path the program reports the human-readable
cause message to the error stream and terminates with exit status 1;
terminal-mode restoration does happen before termination, but it is
performed by the `atexit` handler during `exit(1)`, i.e. AFTER the cause
message, not before it. -/
theorem C3_amended_die_order (s : String) :
    precedes (Action.perrorMsg s) Action.restoreTermios (dieTrace s)
    ∧ precedes Action.restoreTermios (Action.exitStatus 1) (dieTrace s)
    ∧ (dieTrace s).getLast? = some (Action.exitStatus 1) := by
  unfold precedes
  refine ⟨⟨⟨2, ?_⟩, ⟨3, ?_⟩, Nat.le.refl, rfl, rfl⟩,
    ⟨⟨3, ?_⟩, ⟨4, ?_⟩, Nat.le.refl, rfl, rfl⟩, rfl⟩ <;>
    simp [dieTrace, exitTrace]

theorem C3_amended_witness :
    precedes (Action.perrorMsg "read") Action.restoreTermios (dieTrace "read") :=
  (C3_amended_die_order "read").1

/-! ## Append buffer -/

/-- C9: when `realloc` fails, `abAppend` returns immediately and the buffer
is completely unchanged — same bytes, same length; a failed append is
atomic. -/
theorem C9_abAppend_failure_atomic (ab : Abuf) (s : List Char) :
    abAppend false ab s = ab := rfl

theorem C9_witness : abAppend false ⟨chars "abc", 3⟩ (chars "def") = ⟨chars "abc", 3⟩ :=
  C9_abAppend_failure_atomic ⟨chars "abc", 3⟩ (chars "def")

/-! ## Screen renderer -/

lemma abAppend_true_b (ab : Abuf) (s : List Char) :
    (abAppend true ab s).b = ab.b ++ s := rfl

lemma drawWelcomeRow_b (E : EditorConfig) (ab : Abuf) :
    (drawWelcomeRow E ab).b = ab.b ++ welcomeRowBytes E := by
  unfold welcomeRowBytes drawWelcomeRow
  simp only [abAppend]
  split_ifs <;> simp

lemma drawRow_b (E : EditorConfig) (rows : Nat) (ab : Abuf) (y : Nat) :
    (drawRow E rows ab y).b = ab.b ++ rowBytes E rows y := by
  unfold rowBytes drawRow
  split_ifs <;> simp [abAppend, drawWelcomeRow_b]

lemma foldl_drawRow_b (E : EditorConfig) (rows : Nat) :
    ∀ (l : List Nat) (ab : Abuf),
      (l.foldl (drawRow E rows) ab).b
        = ab.b ++ (l.foldl (drawRow E rows) ⟨[], 0⟩).b
  | [], ab => by simp
  | y :: l, ab => by
    simp only [List.foldl_cons]
    rw [foldl_drawRow_b E rows l (drawRow E rows ab y),
      foldl_drawRow_b E rows l (drawRow E rows ⟨[], 0⟩ y),
      drawRow_b, drawRow_b]
    simp

lemma editorDrawRows_b (E : EditorConfig) (ab : Abuf) :
    (editorDrawRows E ab).b = ab.b ++ rowsBytes E := by
  unfold rowsBytes editorDrawRows
  exact foldl_drawRow_b E E.screenrows.toNat (List.range E.screenrows.toNat) ab

/-- The frame built by `editorRefreshScreen` decomposes as: hide-cursor,
home, row content, cursor-position code, show-cursor. -/
lemma refresh_decomp (E : EditorConfig) :
    editorRefreshScreen E
      = chars "\x1b[?25l" ++ chars "\x1b[H" ++ rowsBytes E
        ++ cursorPosCode E ++ chars "\x1b[?25h" := by
  unfold editorRefreshScreen
  simp [abAppend, editorDrawRows_b]

/-- C5: every refresh frame carries the cursor-position code
`\x1b[<cy+1>;<cx+1>H` (1-based wire format) after the row content and
before the show-cursor code; and in an 80×24 viewport starting at (0,0),
ArrowRight then ArrowDown move the cursor to (1,1) and the next frame's
final position code is `\x1b[2;2H`. -/
theorem C5_refresh_cursor_position_code :
    (∀ E : EditorConfig,
      editorRefreshScreen E
        = chars "\x1b[?25l" ++ chars "\x1b[H" ++ rowsBytes E
          ++ cursorPosCode E ++ chars "\x1b[?25h")
    ∧ (∃ E2 : EditorConfig,
        processKeys [ARROW_RIGHT, ARROW_DOWN] ⟨0, 0, 24, 80⟩ = some E2
        ∧ E2.cx = 1 ∧ E2.cy = 1
        ∧ editorRefreshScreen E2
          = (chars "\x1b[?25l" ++ chars "\x1b[H" ++ rowsBytes E2)
            ++ chars "\x1b[2;2H" ++ chars "\x1b[?25h") := by
  refine ⟨refresh_decomp, ⟨1, 1, 24, 80⟩, by decide, rfl, rfl, ?_⟩
  rw [refresh_decomp]
  have hpos : cursorPosCode ⟨1, 1, 24, 80⟩ = chars "\x1b[2;2H" := by decide
  rw [hpos]

theorem C5_witness :
    editorRefreshScreen ⟨0, 0, 2, 5⟩
      = chars "\x1b[?25l" ++ chars "\x1b[H" ++ rowsBytes ⟨0, 0, 2, 5⟩
        ++ cursorPosCode ⟨0, 0, 2, 5⟩ ++ chars "\x1b[?25h" :=
  C5_refresh_cursor_position_code.1 ⟨0, 0, 2, 5⟩

end Kilo
